import Mathlib

/-!
# Verification of the biblioteca-scott live barcode-recognition pipeline

Shallow embedding of the ISBN scanning core of the repository
(`src/unnamed/part_001`): the shared normalization function `cleanISBN`,
the validity check `isValidISBN`, the stability gate kept in `lastRef`,
the polling decode loop of `CameraISBNScanner`, the frame conditioning
(crop + binarization), the camera acquisition strategy
`getBestVideoStream`, and the effect-cleanup teardown.

JavaScript strings are embedded as Lean `String` (a list of characters);
JavaScript numbers appearing here are machine integers in `[0, 2^53)`
embedded as `Nat`, with `Math.floor(x * 0.10)`-style expressions embedded
as exact integer division (`x * 10 / 100`).
-/

namespace BiblioScott

/- ## Shared ISBN helpers (part_001, lines 30 and 58-65) -/

/-- Characters kept by the regex replacement `replace(/[^0-9Xx]/g,"")`:
decimal digits and the letters `X` and `x`. -/
def isKeptChar (c : Char) : Bool :=
  c.isDigit || c == 'X' || c == 'x'

/-- Leading/trailing-whitespace trimming on character lists, the semantics
of JavaScript `String.prototype.trim`. -/
def trimChars (l : List Char) : List Char :=
  ((l.dropWhile Char.isWhitespace).reverse.dropWhile Char.isWhitespace).reverse

/-- Embedding of `norm` (part_001, line 30): `(s||"").toString().trim()`.
On an already-string input this is just a trim. -/
def norm (s : String) : String :=
  String.mk (trimChars s.data)

/-- Embedding of `cleanISBN` (part_001, lines 58-61): trim, drop every
character that is not a digit or `X`/`x`, uppercase, and truncate to at
most 13 characters. -/
def cleanISBN (raw : String) : String :=
  let s := String.mk (((norm raw).data.filter isKeptChar).map Char.toUpper)
  if s.length > 13 then String.mk (s.data.take 13) else s

/-- Embedding of `isValidISBN` (part_001, lines 62-65): the cleaned string
must have length exactly 10 or exactly 13. -/
def isValidISBN (s : String) : Bool :=
  let x := cleanISBN s
  x.length == 10 || x.length == 13

/- ## Stability gate and polling decode loop (part_001, lines 133-237) -/

/-- The mutable cell `lastRef.current = { value, hits }` of
`CameraISBNScanner` (part_001, line 137). -/
structure StabilityState where
  value : String
  hits : Nat
deriving DecidableEq, Repr

/-- Initial gate state `{ value: "", hits: 0 }` (part_001, line 137). -/
def initStability : StabilityState :=
  ⟨"", 0⟩

/-- Gate update on a non-empty cleaned candidate (part_001, lines 198-200):
on a match the hit counter is incremented, otherwise the candidate replaces
the stored value with the counter reset to 1. -/
def observe (st : StabilityState) (cleaned : String) : StabilityState :=
  if st.value = cleaned then ⟨st.value, st.hits + 1⟩ else ⟨cleaned, 1⟩

/-- One polled camera frame, as the loop body sees it: the video element
dimensions at that instant and the raw payload the barcode detector
returned for it (`none` when `detector.detect` found no code). -/
structure Frame where
  width : Nat
  height : Nat
  decoded : Option String
deriving DecidableEq, Repr

/-- One iteration of the body of `loop` (part_001, lines 171-207): skip
when the video dimensions are not yet available, otherwise clean the
decoded payload, feed the gate when the cleaned value is non-empty, and
emit the cleaned value when the gate reaches two hits. Returns the new
gate state and the emitted detection, if any. -/
def loopStep (st : StabilityState) (f : Frame) : StabilityState × Option String :=
  if f.width = 0 ∨ f.height = 0 then (st, none)
  else
    match f.decoded with
    | none => (st, none)
    | some raw =>
      let cleaned := cleanISBN raw
      if cleaned = "" then (st, none)
      else
        let st' := observe st cleaned
        (st', if 2 ≤ st'.hits then some cleaned else none)

/-- Result of running the polling loop over a finite frame schedule:
the value passed to `onDetected` (if any), the number of frame captures
issued (`drawImage`/`getImageData`/`detect` rounds), and the frames the
loop actually consumed before stopping. -/
structure LoopResult where
  detected : Option String
  captures : Nat
  processed : List Frame
deriving DecidableEq, Repr

/-- The polling loop `loop` of part_001 (lines 169-211) over a finite
schedule of frames. `cancel i` is the value of `stopRef.current` read at
the top of iteration `i`; a set flag makes the loop return before any
further camera access. On confirmation the loop emits once and stops. -/
def runLoop (cancel : Nat → Bool) : Nat → StabilityState → List Frame → LoopResult
  | _, _, [] => ⟨none, 0, []⟩
  | i, st, f :: fs =>
    if cancel i then ⟨none, 0, []⟩
    else
      let cap : Nat := if f.width = 0 ∨ f.height = 0 then 0 else 1
      match loopStep st f with
      | (_, some v) => ⟨some v, cap, [f]⟩
      | (st', none) =>
        let r := runLoop cancel (i + 1) st' fs
        ⟨r.detected, cap + r.captures, f :: r.processed⟩

/-- A cancellation flag that is set just before iteration `k` and stays
set: `stopRef.current` becomes true after `k` iterations have run. -/
def cancelAt (k : Nat) : Nat → Bool :=
  fun i => decide (k ≤ i)

/-- A session that is never cancelled. -/
def neverCancel : Nat → Bool :=
  fun _ => false

/-- A frame with available dimensions whose decode attempt returned `raw`. -/
def mkFrame (raw : String) : Frame :=
  ⟨640, 480, some raw⟩

/-- The observation a frame contributes to the gate: the cleaned payload
when the frame has dimensions, a decode result, and a non-empty cleaning;
`none` otherwise (the gate state is untouched on such frames). -/
def frameObs (f : Frame) : Option String :=
  if f.width = 0 ∨ f.height = 0 then none
  else
    match f.decoded with
    | none => none
    | some raw =>
      let cleaned := cleanISBN raw
      if cleaned = "" then none else some cleaned

/-- All frames in the list leave the gate untouched. -/
def SilentAll (l : List Frame) : Prop :=
  ∀ g ∈ l, frameObs g = none

/-- The frame list ends with two successful decode attempts that both
cleaned to `v`, and the two are consecutive as successful attempts: every
frame between them contributed nothing to the gate. -/
def EndsWithPair (v : String) (processed : List Frame) : Prop :=
  ∃ l₁ f₁ l₂ f₂, processed = l₁ ++ f₁ :: (l₂ ++ [f₂]) ∧
    frameObs f₁ = some v ∧ frameObs f₂ = some v ∧ SilentAll l₂

/- ## Frame conditioning: crop and binarization (part_001, lines 179-191) -/

/-- The crop rectangle variables `cx`, `cy`, `cw`, `ch` (lines 180-183). -/
structure CropRect where
  cx : Nat
  cy : Nat
  cw : Nat
  ch : Nat
deriving DecidableEq, Repr

/-- Embedding of the crop computation (lines 180-183): `Math.floor` of
`w*0.10`, `h*0.55`, `w*0.80`, `h*0.30`, in exact integer arithmetic. -/
def cropRect (w h : Nat) : CropRect :=
  ⟨w * 10 / 100, h * 55 / 100, w * 80 / 100, h * 30 / 100⟩

/-- One RGBA pixel of the working canvas buffer (`imageData.data` holds
the four channels per pixel, each an integer in `[0, 255]`). -/
structure RGBA where
  r : Nat
  g : Nat
  b : Nat
  a : Nat
deriving DecidableEq, Repr

/-- Bit length of a natural number (position of the highest set bit plus
one), with explicit recursion fuel; 256 bits of fuel cover every value
arising in the scaled luma computation. -/
def bitLen : Nat → Nat → Nat
  | 0, _ => 0
  | fuel + 1, n => if n = 0 then 0 else bitLen fuel (n / 2) + 1

/-- IEEE-754 binary64 rounding on the non-negative dyadic values of the
luma computation, represented as integer multiples of `2 ^ (-120)`: keep
53 significant bits, rounding to nearest with ties to even. Values that
already fit in 53 bits are exact. -/
def rnd53 (n : Nat) : Nat :=
  let L := bitLen 256 n
  if L ≤ 53 then n
  else
    let s := L - 53
    let q := n / 2 ^ s
    let r := n % 2 ^ s
    let half := 2 ^ (s - 1)
    let q' := if half < r then q + 1
              else if r < half then q
              else if q % 2 = 1 then q + 1 else q
    q' * 2 ^ s

/-- The binary64 double nearest `0.299`, scaled by `2 ^ 120`
(`5386305154335113 / 2 ^ 54`). -/
def c299scaled : Nat := 397439170739689830060251431338770432

/-- The binary64 double nearest `0.587`, scaled by `2 ^ 120`
(`5286752568806290 / 2 ^ 53`). -/
def c587scaled : Nat := 780256833525745572532053157122932736

/-- The binary64 double nearest `0.114`, scaled by `2 ^ 120`
(`8214565720323785 / 2 ^ 56`). -/
def c114scaled : Nat := 151531991519480414971270250689986560

/-- Embedding of the luma computation (line 187):
`(d[i]*0.299 + d[i+1]*0.587 + d[i+2]*0.114) | 0`, evaluated as the
source does in binary64 floating point: each literal is the nearest
double, each multiplication by the exact channel integer and each
left-to-right addition rounds to nearest (ties to even), and the final
`| 0` truncates the non-negative result toward zero. All intermediate
doubles are represented exactly as integer multiples of `2 ^ (-120)`. -/
def jsLuma (r g b : Nat) : Nat :=
  let p1 := rnd53 (r * c299scaled)
  let p2 := rnd53 (g * c587scaled)
  let p3 := rnd53 (b * c114scaled)
  let s1 := rnd53 (p1 + p2)
  let s2 := rnd53 (s1 + p3)
  s2 / 2 ^ 120

/-- The floor of the exact luma formula `0.299 R + 0.587 G + 0.114 B` in
exact rational arithmetic, as the spec's words state it; for comparison
with the computed `jsLuma`. -/
def exactLuma (r g b : Nat) : Nat :=
  (r * 299 + g * 587 + b * 114) / 1000

/-- Embedding of the binarization write (lines 187-190): white (all three
colour channels 255) when the computed luma exceeds 160, else black (all
three channels 0); the alpha channel is left untouched. -/
def binarizePixel (p : RGBA) : RGBA :=
  let g := jsLuma p.r p.g p.b
  let v := if g > 160 then 255 else 0
  ⟨v, v, v, p.a⟩

/- ## Camera acquisition (part_001, lines 72-112) -/

/-- A camera track; the only state teardown observes is whether it has
been stopped. -/
structure CameraTrack where
  stopped : Bool
deriving DecidableEq, Repr

/-- A camera media stream: a list of tracks. -/
structure CameraStream where
  tracks : List CameraTrack
deriving DecidableEq, Repr

/-- The three `getUserMedia` video-constraint shapes the source can issue:
the orientation hint `facingMode: { ideal: "environment" }` together with
the ideal 1280x720 resolution (line 87); an exact device identity together
with the ideal resolution but no orientation hint (line 102); and the
unconstrained `{ video: true }` request (line 111). -/
inductive VideoConstraint where
  | environmentIdeal : VideoConstraint
  | deviceExact : String → VideoConstraint
  | generic : VideoConstraint
deriving DecidableEq, Repr

/-- One entry of `enumerateDevices()`. -/
structure MediaDevice where
  kind : String
  label : String
  deviceId : String
deriving DecidableEq, Repr

/-- A browser media environment: the (deterministic) outcome of a
`getUserMedia` call per constraint, where `none` models the call
throwing, and the outcome of `enumerateDevices()`, where `none` models
the enumeration throwing. -/
structure MediaEnv where
  getUserMedia : VideoConstraint → Option CameraStream
  enumerateDevices : Option (List MediaDevice)

/-- Substring occurrence test on character lists. -/
def hasSub (pat : List Char) : List Char → Bool
  | [] => pat.isEmpty
  | c :: t => pat.isPrefixOf (c :: t) || hasSub pat t

/-- Embedding of the test `/back|rear|environment/i.test(d.label || "")`
(line 73): case-insensitive substring match for any of the three words. -/
def labelMatches (label : String) : Bool :=
  let l := label.data.map Char.toLower
  hasSub "back".data l || hasSub "rear".data l || hasSub "environment".data l

/-- Embedding of `pickBestCamera` (lines 72-75): the first device whose
label matches the pattern, otherwise the first device, otherwise nothing;
a falsy (empty) `deviceId` is returned as `undefined`. -/
def pickBestCamera (devices : List MediaDevice) : Option String :=
  let back := devices.find? fun d => labelMatches d.label
  match back.orElse fun _ => devices.head? with
  | none => none
  | some d => if d.deviceId = "" then none else some d.deviceId

/-- The enumerated devices of kind `"videoinput"` (lines 96-98); empty
when enumeration fails. -/
def videoInputs (env : MediaEnv) : List MediaDevice :=
  match env.enumerateDevices with
  | none => []
  | some devs => devs.filter fun d => d.kind == "videoinput"

/-- Embedding of `getBestVideoStream` (lines 77-112): attempt the
orientation-hint request, then the exact-device request for the device
picked from the enumeration, then the unconstrained request, stopping at
the first success; every `try`/`catch` failure falls through to the next
attempt. Returns the acquired stream (`none` when the last issued request
also throws) paired with the trace of `getUserMedia` requests issued, in
order. -/
def getBestVideoStream (env : MediaEnv) : Option CameraStream × List VideoConstraint :=
  match env.getUserMedia VideoConstraint.environmentIdeal with
  | some s => (some s, [VideoConstraint.environmentIdeal])
  | none =>
    let attempt2 : Option String :=
      match env.enumerateDevices with
      | none => none
      | some devs => pickBestCamera (devs.filter fun d => d.kind == "videoinput")
    match attempt2 with
    | none =>
      (env.getUserMedia VideoConstraint.generic,
        [VideoConstraint.environmentIdeal, VideoConstraint.generic])
    | some id =>
      match env.getUserMedia (VideoConstraint.deviceExact id) with
      | some s =>
        (some s, [VideoConstraint.environmentIdeal, VideoConstraint.deviceExact id])
      | none =>
        (env.getUserMedia VideoConstraint.generic,
          [VideoConstraint.environmentIdeal, VideoConstraint.deviceExact id,
            VideoConstraint.generic])

/-- A concrete environment in which the orientation-hint request throws,
exactly one video input device exists, its label matches none of
back/rear/environment, and the exact-device request for it succeeds. -/
def envFrontOnly : MediaEnv :=
  ⟨fun c =>
    match c with
    | VideoConstraint.environmentIdeal => none
    | VideoConstraint.deviceExact id =>
      if id = "d0" then some ⟨[⟨false⟩]⟩ else none
    | VideoConstraint.generic => none,
   some [⟨"videoinput", "front camera", "d0"⟩]⟩

/- ## Session teardown (part_001, lines 133-139 and 247-253) -/

/-- The scanner's mutable refs relevant to teardown: `streamRef.current`
(the acquired stream, if any) and `stopRef.current` (the cancellation
flag). -/
structure ScannerRefs where
  streamRef : Option CameraStream
  stopRef : Bool
deriving DecidableEq, Repr

/-- Embedding of the effect cleanup (lines 247-253): set the stop flag
and, when a stream was acquired, stop every one of its tracks; a `null`
`streamRef.current` makes the track loop a no-op. -/
def effectCleanup (st : ScannerRefs) : ScannerRefs :=
  ⟨st.streamRef.map fun s => ⟨s.tracks.map fun _ => ⟨true⟩⟩, true⟩

/-- The three exit paths of a scan session: confirmed detection, explicit
cancellation/unmount, and device error (whose message carries the error
name, line 240). -/
inductive ExitPath where
  | confirmed : String → ExitPath
  | cancelled : ExitPath
  | deviceError : String → ExitPath
deriving DecidableEq, Repr

/-- Session termination. The UI runtime invokes the effect cleanup
returned at line 247 on unmount on every exit path (a confirmed detection
closes the scanner overlay, cancellation unmounts the component, and a
device error leaves the overlay to be closed by the user); the teardown
applied is the same source cleanup regardless of the exit path taken. -/
def terminateSession (st : ScannerRefs) : ExitPath → ScannerRefs :=
  fun _ => effectCleanup st

/-- Every track of the (possibly absent) acquired stream is stopped. -/
def allTracksStopped (st : ScannerRefs) : Prop :=
  ∀ s, st.streamRef = some s → ∀ t ∈ s.tracks, t.stopped = true

/- ## The spec's validity predicate, for comparison with `isValidISBN` -/

/-- All characters are decimal digits. -/
def digitsOnly (l : List Char) : Bool :=
  l.all Char.isDigit

/-- The validity predicate as the spec states it (P2): the normalized
string has length exactly 10 or exactly 13 and contains only digits and
optionally a single leading or trailing `X`. Stated from the spec's
words, for comparison with the source's `isValidISBN`. -/
def specValidISBN (s : String) : Bool :=
  let l := (cleanISBN s).data
  (decide (l.length = 10) || decide (l.length = 13)) &&
    (digitsOnly l ||
      (match l with
       | c :: rest => c == 'X' && digitsOnly rest
       | [] => false) ||
      (match l.reverse with
       | c :: rest => c == 'X' && digitsOnly rest
       | [] => false))

/- ## Character-level facts -/

theorem toUpper_of_isDigit (c : Char) (h : c.isDigit = true) : c.toUpper = c := by
  simp only [Char.isDigit, Bool.and_eq_true, decide_eq_true_eq] at h
  have h2 : c.val.toNat ≤ 57 := UInt32.toNat_le_of_le (by decide) h.2
  unfold Char.toUpper
  rw [if_neg]
  intro hcon
  have h3 : 97 ≤ Char.toNat c := hcon.1
  have he : Char.toNat c = c.val.toNat := rfl
  omega

theorem digit_not_ws (c : Char) (h : c.isDigit = true) : c.isWhitespace = false := by
  cases hw : c.isWhitespace
  · rfl
  · exfalso
    simp only [Char.isWhitespace, Bool.or_eq_true, decide_eq_true_eq] at hw
    rcases hw with ((h1 | h1) | h1) | h1 <;> (subst h1; exact absurd h (by decide))

theorem digitOrX_not_ws (c : Char) (h : c.isDigit = true ∨ c = 'X') :
    c.isWhitespace = false := by
  rcases h with h | h
  · exact digit_not_ws c h
  · subst h; decide

theorem digitOrX_kept (c : Char) (h : c.isDigit = true ∨ c = 'X') :
    isKeptChar c = true := by
  rcases h with h | h
  · simp [isKeptChar, h]
  · subst h; decide

theorem digitOrX_toUpper_self (c : Char) (h : c.isDigit = true ∨ c = 'X') :
    Char.toUpper c = c := by
  rcases h with h | h
  · exact toUpper_of_isDigit c h
  · subst h; decide

theorem kept_toUpper_digitOrX (c : Char) (h : isKeptChar c = true) :
    (Char.toUpper c).isDigit = true ∨ Char.toUpper c = 'X' := by
  simp only [isKeptChar, Bool.or_eq_true, beq_iff_eq] at h
  rcases h with (h | h) | h
  · left; rw [toUpper_of_isDigit c h]; exact h
  · subst h; right; decide
  · subst h; right; decide

/- ## List-level facts feeding the `cleanISBN` lemmas -/

theorem dropWhile_eq_self_of_false {p : Char → Bool} {l : List Char}
    (h : ∀ c ∈ l, p c = false) : l.dropWhile p = l := by
  cases l with
  | nil => rfl
  | cons a t =>
    rw [List.dropWhile_cons, if_neg]
    simp [h a (List.mem_cons_self a t)]

theorem trimChars_eq_self {l : List Char}
    (h : ∀ c ∈ l, c.isWhitespace = false) : trimChars l = l := by
  unfold trimChars
  rw [dropWhile_eq_self_of_false h]
  rw [dropWhile_eq_self_of_false (fun c hc => h c (List.mem_reverse.mp hc))]
  exact List.reverse_reverse l

theorem map_eq_self_of_fix {f : Char → Char} {l : List Char}
    (h : ∀ c ∈ l, f c = c) : l.map f = l := by
  induction l with
  | nil => rfl
  | cons a t ih =>
    simp only [List.map_cons, h a (List.mem_cons_self a t), List.cons.injEq, true_and]
    exact ih fun c hc => h c (List.mem_cons_of_mem a hc)

/- ## Core lemmas about `cleanISBN` -/

theorem cleanISBN_chars (s : String) :
    ∀ c ∈ (cleanISBN s).data, c.isDigit = true ∨ c = 'X' := by
  intro c hc
  unfold cleanISBN at hc
  simp only at hc
  have hbase : c ∈ ((norm s).data.filter isKeptChar).map Char.toUpper := by
    by_cases hlen : (String.mk (((norm s).data.filter isKeptChar).map Char.toUpper)).length > 13
    · rw [if_pos hlen] at hc
      exact List.take_subset 13 _ hc
    · rw [if_neg hlen] at hc
      exact hc
  rcases List.mem_map.mp hbase with ⟨c', hc', rfl⟩
  exact kept_toUpper_digitOrX c' (List.mem_filter.mp hc').2

theorem cleanISBN_length_le (s : String) : (cleanISBN s).length ≤ 13 := by
  unfold cleanISBN
  simp only
  split
  · show (String.mk _).length ≤ 13
    have : ∀ l : List Char, (String.mk l).length = l.length := fun _ => rfl
    rw [this, List.length_take]
    omega
  · omega

theorem cleanISBN_fix (t : String)
    (ht : ∀ c ∈ t.data, c.isDigit = true ∨ c = 'X')
    (hl : t.length ≤ 13) : cleanISBN t = t := by
  cases t with
  | mk d =>
    have hd : ∀ c ∈ d, c.isDigit = true ∨ c = 'X' := ht
    have hnorm : norm (String.mk d) = String.mk d := by
      unfold norm
      show String.mk (trimChars d) = String.mk d
      rw [trimChars_eq_self fun c hc => digitOrX_not_ws c (hd c hc)]
    unfold cleanISBN
    rw [hnorm]
    have hfilter : d.filter isKeptChar = d :=
      List.filter_eq_self.mpr fun c hc => digitOrX_kept c (hd c hc)
    have hmap : d.map Char.toUpper = d :=
      map_eq_self_of_fix fun c hc => digitOrX_toUpper_self c (hd c hc)
    show (if (String.mk ((d.filter isKeptChar).map Char.toUpper)).length > 13
          then String.mk ((String.mk ((d.filter isKeptChar).map Char.toUpper)).data.take 13)
          else String.mk ((d.filter isKeptChar).map Char.toUpper)) = String.mk d
    rw [hfilter, hmap]
    rw [if_neg]
    have hlen : (String.mk d).length = d.length := rfl
    rw [hlen] at hl
    show ¬ (String.mk d).length > 13
    rw [hlen]
    omega

theorem cleanISBN_idem (s : String) : cleanISBN (cleanISBN s) = cleanISBN s :=
  cleanISBN_fix _ (cleanISBN_chars s) (cleanISBN_length_le s)

/- ## Basic gate/loop lemmas -/

theorem observe_value (st : StabilityState) (c : String) : (observe st c).value = c := by
  unfold observe
  split
  · next h => simpa using h
  · rfl

theorem loopStep_of_obs_none (st : StabilityState) (f : Frame)
    (h : frameObs f = none) : loopStep st f = (st, none) := by
  unfold frameObs at h
  unfold loopStep
  split
  · rfl
  · next hwh =>
    rw [if_neg hwh] at h
    match hd : f.decoded with
    | none => simp
    | some raw =>
      rw [hd] at h
      simp only at h ⊢
      split
      · rfl
      · next hne => rw [if_neg hne] at h; exact absurd h (by simp)

theorem loopStep_of_obs_some (st : StabilityState) (f : Frame) (c : String)
    (h : frameObs f = some c) :
    loopStep st f =
      (observe st c, if 2 ≤ (observe st c).hits then some c else none) := by
  unfold frameObs at h
  unfold loopStep
  split
  · next hwh => rw [if_pos hwh] at h; exact absurd h (by simp)
  · next hwh =>
    rw [if_neg hwh] at h
    match hd : f.decoded with
    | none => rw [hd] at h; exact absurd h (by simp)
    | some raw =>
      rw [hd] at h
      simp only at h ⊢
      split
      · next he => rw [if_pos he] at h; exact absurd h (by simp)
      · next he =>
        rw [if_neg he] at h
        have : cleanISBN raw = c := by simpa using h
        rw [this]

theorem frameObs_some (f : Frame) (c : String) (h : frameObs f = some c) :
    c ≠ "" ∧ ∃ raw, f.decoded = some raw ∧ cleanISBN raw = c := by
  unfold frameObs at h
  split at h
  · exact absurd h (by simp)
  · match hd : f.decoded with
    | none => rw [hd] at h; exact absurd h (by simp)
    | some raw =>
      rw [hd] at h
      simp only at h
      split at h
      · exact absurd h (by simp)
      · next hne =>
        have hcv : cleanISBN raw = c := by simpa using h
        exact ⟨hcv ▸ hne, raw, rfl, hcv⟩

theorem loopStep_some_obs (st : StabilityState) (f : Frame) (v : String)
    (h : (loopStep st f).2 = some v) : frameObs f = some v := by
  rcases hobs : frameObs f with _ | c
  · rw [loopStep_of_obs_none _ _ hobs] at h
    exact absurd h (by simp)
  · rw [loopStep_of_obs_some _ _ _ hobs] at h
    simp only at h
    split at h
    · exact h
    · exact absurd h (by simp)

theorem loopStep_some_matched (st : StabilityState) (f : Frame) (v : String)
    (h : (loopStep st f).2 = some v) : st.value = v ∧ 1 ≤ st.hits := by
  have hobs := loopStep_some_obs st f v h
  rw [loopStep_of_obs_some _ _ _ hobs] at h
  simp only at h
  split at h
  · next hge =>
    unfold observe at hge
    split at hge
    · next he => simp only at hge; exact ⟨he, by omega⟩
    · simp only at hge; omega
  · exact absurd h (by simp)

theorem loopStep_init_none (f : Frame) : (loopStep initStability f).2 = none := by
  rcases h : (loopStep initStability f).2 with _ | v
  · rfl
  · exfalso
    have hm := loopStep_some_matched initStability f v h
    have : (initStability).hits = 0 := rfl
    omega

/-- Equation lemma for the cons case of `runLoop`. -/
theorem runLoop_cons (cancel : Nat → Bool) (i : Nat) (st : StabilityState)
    (f : Frame) (fs : List Frame) :
    runLoop cancel i st (f :: fs) =
      if cancel i then ⟨none, 0, []⟩
      else
        let cap : Nat := if f.width = 0 ∨ f.height = 0 then 0 else 1
        match loopStep st f with
        | (_, some v) => ⟨some v, cap, [f]⟩
        | (st', none) =>
          let r := runLoop cancel (i + 1) st' fs
          ⟨r.detected, cap + r.captures, f :: r.processed⟩ := by
  rfl

theorem runLoop_detect_trace (cancel : Nat → Bool) (frames : List Frame) :
    ∀ (i : Nat) (st : StabilityState) (v : String),
      (runLoop cancel i st frames).detected = some v →
      (∃ l₂ f₂, (runLoop cancel i st frames).processed = l₂ ++ [f₂] ∧
         frameObs f₂ = some v ∧ SilentAll l₂ ∧ st.value = v ∧ 1 ≤ st.hits)
      ∨ EndsWithPair v (runLoop cancel i st frames).processed := by
  induction frames with
  | nil => intro i st v h; exact absurd h (by simp [runLoop])
  | cons f fs ih =>
    intro i st v h
    rw [runLoop_cons] at h ⊢
    by_cases hc : cancel i
    · rw [if_pos hc] at h
      exact absurd h (by simp)
    · rw [if_neg hc] at h ⊢
      simp only at h ⊢
      rcases hstep : loopStep st f with ⟨st', r⟩
      rcases r with _ | w
      · rw [hstep] at h
        dsimp only at h ⊢
        rcases ih (i + 1) st' v h with ⟨l₂, f₂, hp, hf₂, hsil, hval, hhits⟩ | hpair
        · rcases hobs : frameObs f with _ | c
          · -- silent frame: the pre-state invariant is preserved, extended by f
            have hst : st' = st := by
              have hx := loopStep_of_obs_none st f hobs
              rw [hstep] at hx
              exact congrArg Prod.fst hx
            subst hst
            left
            refine ⟨f :: l₂, f₂, by rw [hp]; simp, hf₂, ?_, hval, hhits⟩
            intro g hg
            rcases List.mem_cons.mp hg with hg | hg
            · rw [hg]; exact hobs
            · exact hsil g hg
          · -- f itself observed c; since the step did not confirm, st'.value = c
            have hstep' := loopStep_of_obs_some st f c hobs
            rw [hstep] at hstep'
            have hst' : st' = observe st c := congrArg Prod.fst hstep'
            have hcv : c = v := by
              have hv : st'.value = c := by rw [hst']; exact observe_value st c
              rw [hval] at hv; exact hv.symm
            right
            exact ⟨[], f, l₂, f₂, by rw [hp]; simp, by rw [hobs, hcv], hf₂, hsil⟩
        · right
          rcases hpair with ⟨l₁, f₁, l₂, f₂, hp, h₁, h₂, hsil⟩
          exact ⟨f :: l₁, f₁, l₂, f₂, by rw [hp]; simp, h₁, h₂, hsil⟩
      · rw [hstep] at h
        dsimp only at h ⊢
        have hwv : w = v := by simpa using h
        subst hwv
        have h2 : (loopStep st f).2 = some w := by rw [hstep]
        have hm := loopStep_some_matched st f w h2
        have hobs := loopStep_some_obs st f w h2
        left
        exact ⟨[], f, rfl, hobs, fun g hg => absurd hg (List.not_mem_nil g), hm.1, hm.2⟩

theorem runLoop_detected_props (cancel : Nat → Bool) (frames : List Frame) :
    ∀ (i : Nat) (st : StabilityState) (v : String),
      (runLoop cancel i st frames).detected = some v →
      v ≠ "" ∧ v.length ≤ 13 ∧ (∀ c ∈ v.data, c.isDigit = true ∨ c = 'X') ∧
        cleanISBN v = v := by
  induction frames with
  | nil => intro i st v h; exact absurd h (by simp [runLoop])
  | cons f fs ih =>
    intro i st v h
    rw [runLoop_cons] at h
    by_cases hc : cancel i
    · rw [if_pos hc] at h
      exact absurd h (by simp)
    · rw [if_neg hc] at h
      simp only at h
      rcases hstep : loopStep st f with ⟨st', r⟩
      rcases r with _ | w
      · rw [hstep] at h
        dsimp only at h
        exact ih (i + 1) st' v h
      · rw [hstep] at h
        dsimp only at h
        have hwv : w = v := by simpa using h
        subst hwv
        have h2 : (loopStep st f).2 = some w := by rw [hstep]
        have hobs := loopStep_some_obs st f w h2
        rcases frameObs_some f w hobs with ⟨hne, raw, _, hclean⟩
        have hwchars : ∀ c ∈ w.data, c.isDigit = true ∨ c = 'X' := by
          rw [← hclean]; exact cleanISBN_chars raw
        have hwlen : w.length ≤ 13 := by
          rw [← hclean]; exact cleanISBN_length_le raw
        exact ⟨hne, hwlen, hwchars, cleanISBN_fix w hwchars hwlen⟩

theorem runLoop_empty_frames (cancel : Nat → Bool) :
    ∀ (n : Nat) (i : Nat) (st : StabilityState),
      (runLoop cancel i st (List.replicate n (mkFrame ""))).detected = none := by
  intro n
  induction n with
  | zero => intro i st; rfl
  | succ m ih =>
    intro i st
    rw [List.replicate_succ, runLoop_cons]
    by_cases hc : cancel i
    · rw [if_pos hc]
    · rw [if_neg hc]
      simp only
      have hobs : frameObs (mkFrame "") = none := by decide
      rw [loopStep_of_obs_none st _ hobs]
      simp only
      exact ih (i + 1) st

theorem runLoop_captures_le (cancel : Nat → Bool) (frames : List Frame) :
    ∀ (i : Nat) (st : StabilityState),
      (runLoop cancel i st frames).captures ≤ frames.length := by
  induction frames with
  | nil => intro i st; exact Nat.le_refl 0
  | cons f fs ih =>
    intro i st
    rw [runLoop_cons]
    by_cases hc : cancel i
    · rw [if_pos hc]
      simp
    · rw [if_neg hc]
      simp only
      rcases hstep : loopStep st f with ⟨st', r⟩
      rcases r with _ | w
      · dsimp only
        have hr := ih (i + 1) st'
        simp only [List.length_cons]
        split <;> omega
      · dsimp only
        simp only [List.length_cons]
        split <;> omega

theorem runLoop_cancelAt_take (k : Nat) (frames : List Frame) :
    ∀ (i : Nat) (st : StabilityState),
      runLoop (cancelAt k) i st frames =
        runLoop neverCancel i st (frames.take (k - i)) := by
  induction frames with
  | nil => intro i st; rw [List.take_nil]; rfl
  | cons f fs ih =>
    intro i st
    by_cases hki : k ≤ i
    · have h1 : cancelAt k i = true := by simp [cancelAt, hki]
      have h2 : k - i = 0 := by omega
      rw [h2, List.take_zero, runLoop_cons, if_pos h1]
      rfl
    · have h1 : cancelAt k i = false := by simp only [cancelAt, decide_eq_false_iff_not]; omega
      have h2 : k - i = (k - (i + 1)) + 1 := by omega
      rw [h2, List.take_succ_cons, runLoop_cons, runLoop_cons,
        if_neg (show ¬ (cancelAt k i = true) from by rw [h1]; simp),
        if_neg (show ¬ (neverCancel i = true) from by simp [neverCancel])]
      simp only
      rcases hstep : loopStep st f with ⟨st', r⟩
      rcases r with _ | w
      · dsimp only
        rw [ih (i + 1) st']
      · rfl

/- ## Camera-acquisition lemmas -/

theorem pickBestCamera_some (devices : List MediaDevice) (id : String)
    (h : pickBestCamera devices = some id) :
    ∃ d, d ∈ devices ∧ d.deviceId = id ∧ id ≠ "" ∧
      (labelMatches d.label = true ∨
        (devices.find? (fun d2 => labelMatches d2.label) = none ∧
          devices.head? = some d)) := by
  unfold pickBestCamera at h
  rcases hf : devices.find? (fun d2 => labelMatches d2.label) with _ | d0
  · rw [hf] at h
    rcases hh : devices.head? with _ | d1
    · rw [hh] at h
      exact absurd h (by simp [Option.orElse])
    · rw [hh] at h
      simp only [Option.orElse] at h
      split at h
      · exact absurd h (by simp)
      · next hne =>
        have hid : d1.deviceId = id := by simpa using h
        rcases List.head?_eq_some_iff.mp hh with ⟨ys, hys⟩
        refine ⟨d1, ?_, hid, hid ▸ hne, Or.inr ⟨hf, rfl⟩⟩
        rw [hys]; exact List.mem_cons_self d1 ys
  · rw [hf] at h
    simp only [Option.orElse] at h
    split at h
    · exact absurd h (by simp)
    · next hne =>
      have hid : d0.deviceId = id := by simpa using h
      have hd0 := List.mem_of_find?_eq_some hf
      have hl : labelMatches d0.label = true := by
        simpa using List.find?_some hf
      exact ⟨d0, hd0, hid, hid ▸ hne, Or.inl hl⟩

/- ## Claim theorems -/

/-- C5: the shared normalization function `cleanISBN` keeps only digits
and `X`/`x`, uppercases, and truncates to at most 13 characters, and it
is idempotent: `cleanISBN (cleanISBN s) = cleanISBN s` for every string,
with the output never longer than 13 characters. -/
theorem C5_normalization_idempotent (s : String) :
    cleanISBN (cleanISBN s) = cleanISBN s ∧ (cleanISBN s).length ≤ 13 :=
  ⟨cleanISBN_idem s, cleanISBN_length_le s⟩

/-- C6 counterexample: the claim says `isValidISBN s` holds only when the
normalized string contains at most one `X` and only in leading or
trailing position; but `"12X4567890"` normalizes to itself (length 10,
`X` in the middle) and `isValidISBN` accepts it, while the spec's
predicate rejects it — so the claimed equivalence is false at
`"12X4567890"`. -/
theorem C6_counterexample :
    isValidISBN "12X4567890" = true ∧ specValidISBN "12X4567890" = false ∧
      (cleanISBN "12X4567890") = "12X4567890" := by
  decide

/-- C6 (amended): `isValidISBN s` holds iff `cleanISBN s` has length
exactly 10 or exactly 13 — the position and multiplicity of `X` are not
constrained. The normalized string does always consist of digits and the
uppercase letter `X` only. -/
theorem C6_validity_length_only (s : String) :
    (isValidISBN s = true ↔
      ((cleanISBN s).length = 10 ∨ (cleanISBN s).length = 13))
    ∧ ∀ c ∈ (cleanISBN s).data, c.isDigit = true ∨ c = 'X' := by
  constructor
  · unfold isValidISBN
    simp only [Bool.or_eq_true, beq_iff_eq]
  · exact cleanISBN_chars s

/-- C6 witness: the amended equivalence applied at a concrete input. -/
theorem C6_witness : isValidISBN "9780131103627" = true :=
  (C6_validity_length_only "9780131103627").1.mpr (Or.inr (by decide))

set_option maxRecDepth 8192 in
/-- C7 counterexample: the claim reads the luma as the exact formula
`L = 0.299 R + 0.587 G + 0.114 B` and requires a pixel of luma 161 to
map to white; at pixel (11, 251, 91) the exact weighted sum is 161.000
(161000 / 1000), but the binary64 evaluation of line 187 yields
160.99999999999997, which `| 0` truncates to 160, so the code writes
black where the claim requires white. -/
theorem C7_counterexample :
    exactLuma 11 251 91 = 161
    ∧ 11 * 299 + 251 * 587 + 91 * 114 = 161000
    ∧ jsLuma 11 251 91 = 160
    ∧ binarizePixel ⟨11, 251, 91, 0⟩ = ⟨0, 0, 0, 0⟩ := by
  decide

set_option maxRecDepth 8192 in
/-- C7 (amended): binarization evaluates the luma of line 187 in binary64
floating-point arithmetic truncated by `| 0` to an integer; the output
pixel is always pure white (all colour channels 255) or pure black (all
channels 0) with the alpha untouched, white exactly when that computed
integer luma exceeds 160 — so computed luma 161 maps to white and
computed luma 160 maps to black, the boundary exclusive on the white
side, as the concrete pixels (161,161,161) and (160,160,160) show — but
the computed luma can fall one below the exact formula's floor at
boundary pixels such as (11, 251, 91). -/
theorem C7_binarization_threshold (p : RGBA) :
    (binarizePixel p = ⟨255, 255, 255, p.a⟩ ∨ binarizePixel p = ⟨0, 0, 0, p.a⟩)
    ∧ (binarizePixel p = ⟨255, 255, 255, p.a⟩ ↔ 160 < jsLuma p.r p.g p.b)
    ∧ (jsLuma p.r p.g p.b = 161 → binarizePixel p = ⟨255, 255, 255, p.a⟩)
    ∧ (jsLuma p.r p.g p.b = 160 → binarizePixel p = ⟨0, 0, 0, p.a⟩)
    ∧ jsLuma 161 161 161 = 161 ∧ jsLuma 160 160 160 = 160 := by
  by_cases h : 160 < jsLuma p.r p.g p.b
  · have hb : binarizePixel p = ⟨255, 255, 255, p.a⟩ := by
      simp only [binarizePixel]
      rw [if_pos h]
    exact ⟨Or.inl hb, ⟨fun _ => h, fun _ => hb⟩, fun _ => hb,
      fun h160 => absurd h (by omega), by decide, by decide⟩
  · have hb : binarizePixel p = ⟨0, 0, 0, p.a⟩ := by
      simp only [binarizePixel]
      rw [if_neg h]
    refine ⟨Or.inr hb, ⟨fun he => ?_, fun hlt => absurd hlt h⟩,
      fun h161 => absurd h161 (by omega), fun _ => hb, by decide, by decide⟩
    rw [hb] at he
    exact absurd he (by simp)

set_option maxRecDepth 8192 in
/-- C7 witness: the threshold instances at concrete pixels whose computed
luma is 161 and 160. -/
theorem C7_witness :
    binarizePixel ⟨161, 161, 161, 7⟩ = ⟨255, 255, 255, 7⟩
    ∧ binarizePixel ⟨160, 160, 160, 9⟩ = ⟨0, 0, 0, 9⟩ :=
  ⟨(C7_binarization_threshold ⟨161, 161, 161, 7⟩).2.2.1 (by decide),
   (C7_binarization_threshold ⟨160, 160, 160, 9⟩).2.2.2.1 (by decide)⟩

/-- C8: the crop rectangle has top-left at 10 percent of the width and
55 percent of the height and size 80 percent by 30 percent (each value
the floor of the exact percentage, characterized by the surrounding
inequalities); in particular for a 1000x800 frame it is (100, 440) with
size (800, 240), and the rectangle always lies inside the frame. -/
theorem C8_crop_rectangle (W H : Nat) :
    cropRect 1000 800 = ⟨100, 440, 800, 240⟩
    ∧ (100 * (cropRect W H).cx ≤ 10 * W ∧ 10 * W < 100 * ((cropRect W H).cx + 1))
    ∧ (100 * (cropRect W H).cy ≤ 55 * H ∧ 55 * H < 100 * ((cropRect W H).cy + 1))
    ∧ (100 * (cropRect W H).cw ≤ 80 * W ∧ 80 * W < 100 * ((cropRect W H).cw + 1))
    ∧ (100 * (cropRect W H).ch ≤ 30 * H ∧ 30 * H < 100 * ((cropRect W H).ch + 1))
    ∧ (cropRect W H).cx + (cropRect W H).cw ≤ W
    ∧ (cropRect W H).cy + (cropRect W H).ch ≤ H := by
  simp only [cropRect]
  refine ⟨by decide, ⟨?_, ?_⟩, ⟨?_, ?_⟩, ⟨?_, ?_⟩, ⟨?_, ?_⟩, ?_, ?_⟩ <;> omega

/-- C1 counterexample: the claim says a cleaned candidate whose length is
not 10 or 13 (such as `"12345"`) is never confirmed; but the loop only
checks the cleaned value for non-emptiness, so two consecutive decodes of
`"12345"` confirm and `onDetected` receives a length-5 string that fails
`isValidISBN`. -/
theorem C1_counterexample :
    (runLoop neverCancel 0 initStability
        [mkFrame "12345", mkFrame "12345"]).detected = some "12345"
    ∧ isValidISBN "12345" = false ∧ ("12345" : String).length = 5 := by
  decide

/-- C1 (amended): an empty decode candidate is never confirmed by the
stability gate no matter how many times it is observed consecutively, and
`onDetected` is only ever invoked with a non-empty normalized string
(a `cleanISBN` fixed point) produced by two consecutive identical
successful decode attempts; the code does not additionally require the
length to be exactly 10 or 13. -/
theorem C1_empty_never_confirms (n : Nat) (cancel : Nat → Bool)
    (frames : List Frame) (v : String) :
    (runLoop cancel 0 initStability (List.replicate n (mkFrame ""))).detected = none
    ∧ ((runLoop cancel 0 initStability frames).detected = some v →
        v ≠ "" ∧ cleanISBN v = v ∧
          EndsWithPair v (runLoop cancel 0 initStability frames).processed) := by
  constructor
  · exact runLoop_empty_frames cancel n 0 initStability
  · intro h
    rcases runLoop_detected_props cancel frames 0 initStability v h with ⟨h1, _, _, h4⟩
    rcases runLoop_detect_trace cancel frames 0 initStability v h with
      ⟨l₂, f₂, hp, hf₂, hsil, hval, hhits⟩ | hpair
    · exfalso
      have h0 : initStability.hits = 0 := rfl
      omega
    · exact ⟨h1, h4, hpair⟩

/-- C1 witness: the implication applied to a run that does confirm. -/
theorem C1_witness :
    "9780131103627" ≠ "" ∧ cleanISBN "9780131103627" = "9780131103627" ∧
      EndsWithPair "9780131103627"
        (runLoop neverCancel 0 initStability
          [mkFrame "9780131103627", mkFrame "9780131103627"]).processed :=
  (C1_empty_never_confirms 0 neverCancel
    [mkFrame "9780131103627", mkFrame "9780131103627"] "9780131103627").2
    (by decide)

/-- C2: the gate update keeps the observed candidate as the stored value,
incrementing the hit counter on a match and resetting it to 1 otherwise;
confirmation fires exactly when the updated counter reaches 2. Through
the actual loop: two identical reads of `"9780131103627"` confirm on the
second observation, a mismatching second read prevents confirmation, and
a third read repeating the second value then confirms it. -/
theorem C2_stability_gate (st : StabilityState) (c : String) :
    ((observe st c).value = c
      ∧ (observe st c).hits = (if st.value = c then st.hits + 1 else 1))
    ∧ (runLoop neverCancel 0 initStability
        [mkFrame "9780131103627", mkFrame "9780131103627"]).detected
      = some "9780131103627"
    ∧ (runLoop neverCancel 0 initStability
        [mkFrame "9780131103627", mkFrame "9780131103627"]).processed.length = 2
    ∧ (runLoop neverCancel 0 initStability
        [mkFrame "9780131103627", mkFrame "9780000000000"]).detected = none
    ∧ (runLoop neverCancel 0 initStability
        [mkFrame "9780131103627", mkFrame "9780000000000",
          mkFrame "9780000000000"]).detected = some "9780000000000"
    ∧ (frameObs (mkFrame c) = some c →
        loopStep st (mkFrame c)
          = (observe st c, if 2 ≤ (observe st c).hits then some c else none)) := by
  refine ⟨⟨observe_value st c, ?_⟩, by decide, by decide, by decide, by decide, ?_⟩
  · unfold observe
    split <;> rfl
  · intro hobs
    exact loopStep_of_obs_some st (mkFrame c) c hobs

/-- C2 witness: one matched observation at hit count 1 confirms. -/
theorem C2_witness :
    loopStep ⟨"9780131103627", 1⟩ (mkFrame "9780131103627")
      = (observe ⟨"9780131103627", 1⟩ "9780131103627",
          if 2 ≤ (observe ⟨"9780131103627", 1⟩ "9780131103627").hits
          then some "9780131103627" else none) :=
  (C2_stability_gate ⟨"9780131103627", 1⟩ "9780131103627").2.2.2.2.2 (by decide)

/-- C4: the cancellation flag is read at the top of every iteration: with
the flag set from iteration `k` on, the loop behaves exactly as the
uncancelled loop on the first `k` frames and issues at most `k` captures;
in particular, a flag set after the first iteration and before the second
means no second capture is issued and `onDetected` is never called, and a
flag set before the first iteration means no camera access at all. -/
theorem C4_cancellation_checked (frames : List Frame) (st : StabilityState) (k : Nat) :
    runLoop (cancelAt k) 0 st frames = runLoop neverCancel 0 st (frames.take k)
    ∧ (runLoop (cancelAt k) 0 st frames).captures ≤ k
    ∧ (runLoop (cancelAt 1) 0 initStability frames).detected = none
    ∧ (runLoop (cancelAt 1) 0 initStability frames).captures ≤ 1
    ∧ runLoop (cancelAt 0) 0 st frames = ⟨none, 0, []⟩ := by
  have heq : ∀ (m : Nat) (st' : StabilityState),
      runLoop (cancelAt m) 0 st' frames = runLoop neverCancel 0 st' (frames.take m) := by
    intro m st'
    have hx := runLoop_cancelAt_take m frames 0 st'
    simpa using hx
  have hcap : ∀ (m : Nat) (st' : StabilityState),
      (runLoop (cancelAt m) 0 st' frames).captures ≤ m := by
    intro m st'
    rw [heq m st']
    calc (runLoop neverCancel 0 st' (frames.take m)).captures
        ≤ (frames.take m).length := runLoop_captures_le neverCancel _ 0 st'
      _ ≤ m := by rw [List.length_take]; omega
  refine ⟨heq k st, hcap k st, ?_, hcap 1 initStability, ?_⟩
  · rw [heq 1 initStability]
    rcases frames with _ | ⟨f, fs⟩
    · rfl
    · rw [show List.take 1 (f :: fs) = [f] from by
        rw [List.take_succ_cons, List.take_zero]]
      rw [runLoop_cons, if_neg (show ¬ (neverCancel 0 = true) from by simp [neverCancel])]
      simp only
      rcases hstep : loopStep initStability f with ⟨st', r⟩
      have hr : r = none := by
        have hx := loopStep_init_none f
        rw [hstep] at hx
        exact hx
      subst hr
      rfl
  · rcases frames with _ | ⟨f, fs⟩
    · rfl
    · rw [runLoop_cons, if_pos (show cancelAt 0 0 = true from by decide)]

/-- C4 witness: with the flag set after the first iteration, a schedule
that would confirm on the second frame detects nothing and captures at
most one frame. -/
theorem C4_witness :
    (runLoop (cancelAt 1) 0 initStability
        [mkFrame "9780131103627", mkFrame "9780131103627"]).detected = none
    ∧ (runLoop (cancelAt 1) 0 initStability
        [mkFrame "9780131103627", mkFrame "9780131103627"]).captures ≤ 1 :=
  ⟨(C4_cancellation_checked [mkFrame "9780131103627", mkFrame "9780131103627"]
      initStability 1).2.2.1,
   (C4_cancellation_checked [mkFrame "9780131103627", mkFrame "9780131103627"]
      initStability 1).2.2.2.1⟩

/-- C10: whenever the loop invokes `onDetected v` from the initial gate
state, `v` is a non-empty string of length at most 13 containing only
decimal digits and the uppercase letter `X` (a `cleanISBN` fixed point),
and the processed frames end with the two most recent consecutive
successful decode attempts both cleaning to `v`; the code does not
require the length to be exactly 10 or 13, as the confirmed length-5
run shows. -/
theorem C10_detected_invariant (cancel : Nat → Bool) (frames : List Frame)
    (v : String) :
    ((runLoop cancel 0 initStability frames).detected = some v →
      v ≠ "" ∧ v.length ≤ 13 ∧ (∀ c ∈ v.data, c.isDigit = true ∨ c = 'X') ∧
        cleanISBN v = v ∧
        EndsWithPair v (runLoop cancel 0 initStability frames).processed)
    ∧ (runLoop neverCancel 0 initStability
        [mkFrame "12345", mkFrame "12345"]).detected = some "12345"
    ∧ isValidISBN "12345" = false := by
  refine ⟨?_, by decide, by decide⟩
  intro h
  rcases runLoop_detected_props cancel frames 0 initStability v h with ⟨h1, h2, h3, h4⟩
  rcases runLoop_detect_trace cancel frames 0 initStability v h with
    ⟨l₂, f₂, hp, hf₂, hsil, hval, hhits⟩ | hpair
  · exfalso
    have h0 : initStability.hits = 0 := rfl
    omega
  · exact ⟨h1, h2, h3, h4, hpair⟩

/-- C10 witness: the invariant applied to a run that confirms. -/
theorem C10_witness :
    "9780131103627" ≠ "" ∧ ("9780131103627" : String).length ≤ 13 ∧
      (∀ c ∈ ("9780131103627" : String).data, c.isDigit = true ∨ c = 'X') ∧
      cleanISBN "9780131103627" = "9780131103627" ∧
      EndsWithPair "9780131103627"
        (runLoop neverCancel 0 initStability
          [mkFrame "9780131103627", mkFrame "9780131103627"]).processed :=
  (C10_detected_invariant neverCancel
    [mkFrame "9780131103627", mkFrame "9780131103627"] "9780131103627").1
    (by decide)

/-- C3: on every exit path of a scan session the same teardown runs: it
stops every track of the acquired stream, it is idempotent, and it is
safe (a no-op on the stream field) when no stream was ever acquired. -/
theorem C3_teardown_release (st : ScannerRefs) (e e' : ExitPath) (b : Bool) :
    allTracksStopped (terminateSession st e)
    ∧ terminateSession (terminateSession st e) e' = terminateSession st e
    ∧ terminateSession ⟨none, b⟩ e = ⟨none, true⟩
    ∧ (terminateSession st e).stopRef = true
    ∧ terminateSession st e = effectCleanup st := by
  refine ⟨?_, ?_, rfl, rfl, rfl⟩
  · intro s hs t ht
    have hsr : (terminateSession st e).streamRef
        = st.streamRef.map fun s0 => ⟨s0.tracks.map fun _ => ⟨true⟩⟩ := rfl
    rw [hsr] at hs
    rcases hst : st.streamRef with _ | s0
    · rw [hst] at hs
      exact absurd hs (by simp)
    · rw [hst] at hs
      have hseq : s = ⟨s0.tracks.map fun _ => ⟨true⟩⟩ := by
        simpa using hs.symm
      subst hseq
      rcases List.mem_map.mp ht with ⟨t0, _, rfl⟩
      rfl
  · rcases st with ⟨sr, fl⟩
    rcases sr with _ | s0
    · rfl
    · simp [terminateSession, effectCleanup, List.map_map, Function.comp]

/-- C3 witness: the teardown applied to a session holding a two-track
stream on the cancellation path. -/
theorem C3_witness :
    allTracksStopped
      (terminateSession ⟨some ⟨[⟨false⟩, ⟨true⟩]⟩, false⟩ ExitPath.cancelled) :=
  (C3_teardown_release ⟨some ⟨[⟨false⟩, ⟨true⟩]⟩, false⟩ ExitPath.cancelled
    ExitPath.cancelled false).1

/-- C9 counterexample: the claim describes strategy 2 as requesting a
device whose label matches the back/rear/environment pattern; in the
environment `envFrontOnly` no enumerated device label matches, yet the
code still issues an exact-device request (for the first enumerated
device) and succeeds with it — the `devices[0]` fallback of
`pickBestCamera` is not in the claim. -/
theorem C9_counterexample :
    (getBestVideoStream envFrontOnly).2
      = [VideoConstraint.environmentIdeal, VideoConstraint.deviceExact "d0"]
    ∧ (∀ d ∈ videoInputs envFrontOnly, labelMatches d.label = false)
    ∧ (getBestVideoStream envFrontOnly).1
        = envFrontOnly.getUserMedia (VideoConstraint.deviceExact "d0")
    ∧ (getBestVideoStream envFrontOnly).1.isSome = true := by
  decide

/-- C9 (amended): acquisition attempts the three strategies in order,
stopping at the first success: the orientation-hint request (ideal
1280x720) always comes first; the issued requests form a sublist of
`[environmentIdeal, deviceExact id, generic]` for some `id` (so an exact
device identity is never combined with the orientation hint); every
non-final request failed; the result is the outcome of the final issued
request; any exact-device request names a non-empty-id enumerated video
input that either matches the back/rear/environment pattern or — when no
enumerated device matches — is the first enumerated video input; and
acquisition fails only when every issued request, ending with the
unconstrained one, failed. -/
theorem C9_acquisition_strategy (env : MediaEnv) :
    (getBestVideoStream env).2.head? = some VideoConstraint.environmentIdeal
    ∧ (∃ id, List.Sublist (getBestVideoStream env).2
        [VideoConstraint.environmentIdeal, VideoConstraint.deviceExact id,
          VideoConstraint.generic])
    ∧ (∀ c ∈ (getBestVideoStream env).2.dropLast, env.getUserMedia c = none)
    ∧ (getBestVideoStream env).1
        = (getBestVideoStream env).2.getLast?.bind env.getUserMedia
    ∧ (∀ id, VideoConstraint.deviceExact id ∈ (getBestVideoStream env).2 →
        ∃ d, d ∈ videoInputs env ∧ d.deviceId = id ∧ id ≠ "" ∧
          (labelMatches d.label = true ∨
            ((videoInputs env).find? (fun d2 => labelMatches d2.label) = none ∧
              (videoInputs env).head? = some d)))
    ∧ ((getBestVideoStream env).1 = none →
        VideoConstraint.generic ∈ (getBestVideoStream env).2 ∧
          ∀ c ∈ (getBestVideoStream env).2, env.getUserMedia c = none) := by
  rcases env with ⟨gum, ed⟩
  rcases h1 : gum VideoConstraint.environmentIdeal with _ | s1
  · -- the orientation-hint request throws
    rcases ed with _ | devs
    · -- enumeration throws: fall through to the generic request
      have hres : getBestVideoStream ⟨gum, none⟩
          = (gum VideoConstraint.generic,
             [VideoConstraint.environmentIdeal, VideoConstraint.generic]) := by
        unfold getBestVideoStream
        dsimp only
        rw [h1]
      rw [hres]
      refine ⟨rfl, ⟨"", ?_⟩, ?_, ?_, ?_, ?_⟩
      · exact List.Sublist.cons₂ _ (List.Sublist.cons _ (List.Sublist.refl _))
      · intro c hc
        have hce : c = VideoConstraint.environmentIdeal := by simpa using hc
        subst hce
        exact h1
      · rfl
      · intro id hid
        simp at hid
      · intro hnone
        refine ⟨by simp, ?_⟩
        intro c hc
        rcases (by simpa using hc :
            c = VideoConstraint.environmentIdeal ∨ c = VideoConstraint.generic) with
          rfl | rfl
        · exact h1
        · exact hnone
    · rcases hpick : pickBestCamera (devs.filter fun d => d.kind == "videoinput")
        with _ | id
      · -- no usable device id: fall through to the generic request
        have hres : getBestVideoStream ⟨gum, some devs⟩
            = (gum VideoConstraint.generic,
               [VideoConstraint.environmentIdeal, VideoConstraint.generic]) := by
          unfold getBestVideoStream
          dsimp only
          rw [h1]
          dsimp only
          rw [hpick]
        rw [hres]
        refine ⟨rfl, ⟨"", ?_⟩, ?_, ?_, ?_, ?_⟩
        · exact List.Sublist.cons₂ _ (List.Sublist.cons _ (List.Sublist.refl _))
        · intro c hc
          have hce : c = VideoConstraint.environmentIdeal := by simpa using hc
          subst hce
          exact h1
        · rfl
        · intro id hid
          simp at hid
        · intro hnone
          refine ⟨by simp, ?_⟩
          intro c hc
          rcases (by simpa using hc :
              c = VideoConstraint.environmentIdeal ∨ c = VideoConstraint.generic) with
            rfl | rfl
          · exact h1
          · exact hnone
      · rcases h3 : gum (VideoConstraint.deviceExact id) with _ | s2
        · -- exact-device request throws: fall through to the generic request
          have hres : getBestVideoStream ⟨gum, some devs⟩
              = (gum VideoConstraint.generic,
                 [VideoConstraint.environmentIdeal, VideoConstraint.deviceExact id,
                   VideoConstraint.generic]) := by
            unfold getBestVideoStream
            dsimp only
            rw [h1]
            dsimp only
            rw [hpick]
            dsimp only
            rw [h3]
          rw [hres]
          refine ⟨rfl, ⟨id, ?_⟩, ?_, ?_, ?_, ?_⟩
          · exact List.Sublist.refl _
          · intro c hc
            rcases (by simpa using hc :
                c = VideoConstraint.environmentIdeal
                  ∨ c = VideoConstraint.deviceExact id) with rfl | rfl
            · exact h1
            · exact h3
          · rfl
          · intro id' hid'
            have hii : id' = id := by simpa using hid'
            subst hii
            exact pickBestCamera_some _ id' hpick
          · intro hnone
            refine ⟨by simp, ?_⟩
            intro c hc
            rcases (by simpa using hc :
                c = VideoConstraint.environmentIdeal
                  ∨ c = VideoConstraint.deviceExact id
                  ∨ c = VideoConstraint.generic) with rfl | rfl | rfl
            · exact h1
            · exact h3
            · exact hnone
        · -- exact-device request succeeds
          have hres : getBestVideoStream ⟨gum, some devs⟩
              = (some s2,
                 [VideoConstraint.environmentIdeal,
                   VideoConstraint.deviceExact id]) := by
            unfold getBestVideoStream
            dsimp only
            rw [h1]
            dsimp only
            rw [hpick]
            dsimp only
            rw [h3]
          rw [hres]
          refine ⟨rfl, ⟨id, ?_⟩, ?_, ?_, ?_, ?_⟩
          · exact List.Sublist.cons₂ _ (List.Sublist.cons₂ _ (List.nil_sublist _))
          · intro c hc
            have hce : c = VideoConstraint.environmentIdeal := by simpa using hc
            subst hce
            exact h1
          · exact h3.symm
          · intro id' hid'
            have hii : id' = id := by simpa using hid'
            subst hii
            exact pickBestCamera_some _ id' hpick
          · intro hnone
            exact absurd hnone (by simp)
  · -- the orientation-hint request succeeds: a single request is issued
    have hres : getBestVideoStream ⟨gum, ed⟩
        = (some s1, [VideoConstraint.environmentIdeal]) := by
      unfold getBestVideoStream
      dsimp only
      rw [h1]
    rw [hres]
    refine ⟨rfl, ⟨"", ?_⟩, ?_, ?_, ?_, ?_⟩
    · exact List.Sublist.cons₂ _ (List.nil_sublist _)
    · intro c hc
      simp at hc
    · exact h1.symm
    · intro id hid
      simp at hid
    · intro hnone
      exact absurd hnone (by simp)

/-- C9 witness: the amended properties applied to the concrete
environment where only a non-matching device exists. -/
theorem C9_witness :
    (getBestVideoStream envFrontOnly).2.head? = some VideoConstraint.environmentIdeal
    ∧ ∃ d, d ∈ videoInputs envFrontOnly ∧ d.deviceId = "d0" ∧ "d0" ≠ "" ∧
        (labelMatches d.label = true ∨
          ((videoInputs envFrontOnly).find? (fun d2 => labelMatches d2.label) = none ∧
            (videoInputs envFrontOnly).head? = some d)) :=
  ⟨(C9_acquisition_strategy envFrontOnly).1,
   (C9_acquisition_strategy envFrontOnly).2.2.2.2.1 "d0" (by decide)⟩

end BiblioScott
